import Mathlib

/-!
Shallow embedding of the capture/segmentation pipeline of
`src/transcribe_audio.cpp` (Speech-to-Data), together with proofs of the
spec claims about it.

The embedding follows the C++ source:
* the compile-time constants `SAMPLE_RATE`, `FRAMES_PER_BUFFER`,
  `MIN_AUDIO_LENGTH_MS`, `MIN_AUDIO_SAMPLES`;
* the VAD state of `PortAudioRecorder` (`vad_buffer`,
  `consecutive_silence_chunks_`) and the per-frame work of `pa_callback`;
* the limits computed in `startRecording` (`max_buffer_samples_`,
  `max_silence_chunks_`) and the stop/start lifecycle;
* the calibration formula of `adjustForAmbientNoise`;
* the consumer loop of `main` (phrase aggregation over the transcript lines).

16-bit samples are modelled as `ℤ`, durations and time stamps as `ℚ`
(`std::chrono` comparisons are exact), the `double` intermediate values of
the source as exact real/rational arithmetic.
-/

namespace SpeechToData

/-- `#define SAMPLE_RATE 16000`. -/
def SAMPLE_RATE : ℕ := 16000

/-- `#define FRAMES_PER_BUFFER 1024`. -/
def FRAMES_PER_BUFFER : ℕ := 1024

/-- `#define MIN_AUDIO_LENGTH_MS 100`. -/
def MIN_AUDIO_LENGTH_MS : ℕ := 100

/-- `#define MIN_AUDIO_SAMPLES static_cast<size_t>(SAMPLE_RATE * MIN_AUDIO_LENGTH_MS / 1000.0)`:
the double product is `1600.0` exactly, so the cast yields `1600`. -/
def MIN_AUDIO_SAMPLES : ℕ := SAMPLE_RATE * MIN_AUDIO_LENGTH_MS / 1000

/-- Sum of squared samples of a frame, the `sum_squares` accumulator of
`pa_callback` and of `adjustForAmbientNoise`. -/
def sum_squares (samples : List ℤ) : ℤ :=
  (samples.map (fun s => s * s)).sum

/-- The VAD decision `rms > threshold` of `pa_callback`, where
`rms = sqrt(sum_squares / framesPerBuffer)`.  Squaring the (nonnegative) rms
turns it into exact integer arithmetic: for `threshold ≥ 0`,
`rms > threshold ↔ sum_squares > threshold² · n`; a negative threshold is
below any rms.  (For an empty frame the C++ quotient is NaN and the
comparison is false, matching `0 < 0 = false` here.) -/
def isVoiced (threshold : ℤ) (frame : List ℤ) : Bool :=
  decide (threshold < 0) ||
    decide (threshold ^ 2 * (frame.length : ℤ) < sum_squares frame)

/-- The VAD state of `PortAudioRecorder`: the fields `vad_buffer` and
`consecutive_silence_chunks_`. -/
structure VadState where
  vad_buffer : List ℤ
  consecutive_silence_chunks : ℕ
deriving DecidableEq, Repr

/-- The buffer-update section of `pa_callback` (before the flush check):
a voiced frame resets the silence counter and is appended; a silent frame is
appended (incrementing the counter) only when a segment is already open. -/
def vadUpdate (threshold : ℤ) (st : VadState) (frame : List ℤ) : VadState :=
  if isVoiced threshold frame then
    ⟨st.vad_buffer ++ frame, 0⟩
  else if st.vad_buffer ≠ [] then
    ⟨st.vad_buffer ++ frame, st.consecutive_silence_chunks + 1⟩
  else
    st

/-- The flush section of `pa_callback`: when the buffer is non-empty and has
reached `max_buffer_samples_` samples, or `consecutive_silence_chunks_` has
reached `max_silence_chunks_`, the buffer is delivered and both the buffer
and the counter are reset. -/
def vadFlush (maxBuf maxSil : ℕ) (st : VadState) : VadState × Option (List ℤ) :=
  if st.vad_buffer ≠ [] ∧
      (maxBuf ≤ st.vad_buffer.length ∨ maxSil ≤ st.consecutive_silence_chunks) then
    (⟨[], 0⟩, some st.vad_buffer)
  else
    (st, none)

/-- One VAD-active invocation of `pa_callback` (bypass off): update then
flush check; the second component is the delivered segment, if any. -/
def pa_callback_step (threshold : ℤ) (maxBuf maxSil : ℕ)
    (st : VadState) (frame : List ℤ) : VadState × Option (List ℤ) :=
  vadFlush maxBuf maxSil (vadUpdate threshold st frame)

/-- One full invocation of `pa_callback`: with `bypass_vad_` set the raw
frame is forwarded untouched, otherwise the VAD logic runs. -/
def pa_callback (bypass : Bool) (threshold : ℤ) (maxBuf maxSil : ℕ)
    (st : VadState) (frame : List ℤ) : VadState × Option (List ℤ) :=
  if bypass then (st, some frame) else pa_callback_step threshold maxBuf maxSil st frame

/-- Folding `pa_callback` (VAD active) over a sequence of frames, keeping the
final VAD state. -/
def vadRun (threshold : ℤ) (maxBuf maxSil : ℕ) (st : VadState) :
    List (List ℤ) → VadState
  | [] => st
  | f :: fs => vadRun threshold maxBuf maxSil (pa_callback_step threshold maxBuf maxSil st f).1 fs

/-- `max_buffer_samples_ = static_cast<size_t>(sampleRate_ * recordTimeout_)`
from `startRecording` (truncation of a nonnegative double). -/
def max_buffer_samples (sampleRate : ℕ) (recordTimeout : ℚ) : ℕ :=
  (⌊(sampleRate : ℚ) * recordTimeout⌋).toNat

/-- `max_silence_chunks_ = static_cast<size_t>(std::ceil(phraseTimeout_ * sampleRate_ / FRAMES_PER_BUFFER))`
from `startRecording`. -/
def max_silence_chunks (sampleRate : ℕ) (phraseTimeout : ℚ) : ℕ :=
  (⌈phraseTimeout * (sampleRate : ℚ) / (FRAMES_PER_BUFFER : ℚ)⌉).toNat

/-- The mutable state of a `PortAudioRecorder`: the stream handle (modelled
as "a stream is open"), the `recordingActive` and `bypass_vad_` flags, the
VAD state, the energy threshold and the two limits computed by
`startRecording`. -/
structure RecorderState where
  stream : Bool
  recordingActive : Bool
  bypass_vad : Bool
  vad : VadState
  energyThreshold : ℤ
  max_buffer_samples_ : ℕ
  max_silence_chunks_ : ℕ
deriving DecidableEq, Repr

/-- `PortAudioRecorder::stopRecording`: a no-op unless `recordingActive`;
otherwise it clears the flag, stops and closes the stream, and clears the
VAD buffer (the silence counter is not touched). -/
def stopRecording (s : RecorderState) : RecorderState :=
  if s.recordingActive then
    { s with recordingActive := false, stream := false,
             vad := ⟨[], s.vad.consecutive_silence_chunks⟩ }
  else s

/-- `PortAudioRecorder::startRecording`.  The environment outcomes (default
input device present, `Pa_OpenStream` succeeding, `Pa_StartStream`
succeeding) are passed as booleans.  A recorder that is already active is
stopped first; the limits, the silence counter, `bypass_vad_` and
`recordingActive` are then set, and only afterwards are the device and
stream checked — the failure returns do not roll `recordingActive` back. -/
def startRecording (hasDevice openOk startOk : Bool) (sampleRate : ℕ)
    (recordTimeout phraseTimeout : ℚ) (s : RecorderState) : RecorderState × Bool :=
  let s0 := if s.recordingActive then stopRecording s else s
  let s1 : RecorderState :=
    { s0 with
      max_buffer_samples_ := max_buffer_samples sampleRate recordTimeout,
      max_silence_chunks_ := max_silence_chunks sampleRate phraseTimeout,
      vad := ⟨s0.vad.vad_buffer, 0⟩,
      bypass_vad := false,
      recordingActive := true }
  if hasDevice = false then (s1, false)
  else if openOk = false then (s1, false)
  else if startOk = false then ({ s1 with stream := false }, false)
  else ({ s1 with stream := true }, true)

/-- The calibration formula of `adjustForAmbientNoise`:
`energyThreshold = static_cast<int>(rms * 2.5)` with
`rms = sqrt(sum_squares / noise_samples.size())`.  Since
`2.5 · √(S/n) = √((25·S)/(4·n))` and the cast truncates a nonnegative
value, the result is `⌊√((25·S)/(4·n))⌋ = Nat.sqrt` of the natural-number
quotient `(25·S) / (4·n)`; the identity with the real-valued formula is
proved in `calibThreshold_eq_floor`. -/
def calibThreshold (noise_samples : List ℤ) : ℤ :=
  (Nat.sqrt ((25 * (sum_squares noise_samples).toNat) / (4 * noise_samples.length)) : ℕ)

/-- Modelled from the spec: `EnergyThreshold = round(RMS × 2.5)`.  For
nonnegative `x`, `round x = ⌊x + 1/2⌋`, and with `x = 2.5 · √(S/n)` we get
`x + 1/2 = (√((25·S)/n) + 1)/2`, whose floor is
`(Nat.sqrt ((25·S)/n) + 1)/2` in natural-number arithmetic; the identity
with `round` is proved in `calibThresholdSpec_eq_round`. -/
def calibThresholdSpec (noise_samples : List ℤ) : ℤ :=
  ((Nat.sqrt ((25 * (sum_squares noise_samples).toNat) / noise_samples.length) + 1) / 2 : ℕ)

/-- `PortAudioRecorder::adjustForAmbientNoise`, as a function of the current
threshold, the explicit override argument and the collected noise samples:
an explicit `energy_threshold ≠ -1` wins; an empty collection keeps the
current threshold; otherwise the calibration formula is applied. -/
def adjustForAmbientNoise (current energy_threshold : ℤ)
    (noise_samples : List ℤ) : ℤ :=
  if energy_threshold ≠ -1 then energy_threshold
  else if noise_samples = [] then current
  else calibThreshold noise_samples

/-- The whitespace set `" \t\n\r\f\v"` used by `trim`. -/
def isCppSpace (c : Char) : Bool :=
  c = ' ' || c = '\t' || c = '\n' || c = '\r' || c = Char.ofNat 12 || c = Char.ofNat 11

/-- `trim`: drop leading and trailing characters of `" \t\n\r\f\v"`
(`find_first_not_of` / `find_last_not_of` and `substr`; all-whitespace
input yields the empty string). -/
def cppTrim (s : String) : String :=
  ⟨((s.toList.dropWhile isCppSpace).reverse.dropWhile isCppSpace).reverse⟩

/-- The padding step of the dispatch loop:
`if (audio_data.size() < MIN_AUDIO_SAMPLES) audio_data.resize(MIN_AUDIO_SAMPLES, 0);`
— `resize` with a larger size appends zeros on the right. -/
def padAudio (audio_data : List ℤ) : List ℤ :=
  if audio_data.length < MIN_AUDIO_SAMPLES then
    audio_data ++ List.replicate (MIN_AUDIO_SAMPLES - audio_data.length) 0
  else audio_data

/-- The normalisation step of the dispatch loop:
`audio_np[i] = static_cast<float>(audio_data[i]) / 32768.0f`. -/
def normalizeAudio (audio_data : List ℤ) : List ℚ :=
  audio_data.map (fun s => (s : ℚ) / 32768)

/-- `transcription.back() = text`: overwrite the live (last) line. -/
def setLast (transcription : List String) (text : String) : List String :=
  transcription.dropLast ++ [text]

/-- The consumer-loop state of `main`: the transcript lines (the last one is
live), `last_phrase_end_time` and `phrase_time_set`. -/
structure DispatchState where
  transcription : List String
  last_phrase_end_time : ℚ
  phrase_time_set : Bool
deriving DecidableEq, Repr

/-- Result of one consumer-loop iteration: the new state and, when a segment
was processed, the normalised samples handed to `transcribe`. -/
structure StepOut where
  state : DispatchState
  asrInput : Option (List ℚ)
deriving DecidableEq, Repr

/-- One iteration of the consumer loop of `main`.  `audio_data` is the
segment popped from the queue in this poll interval ( `[]` when the bounded
wait timed out), `now` the time stamp taken at the top of the iteration,
`asr` the external `transcribe` contract.  The source computes
`phrase_complete` from `phrase_time_set` and `last_phrase_end_time` before
updating them; here the condition is written inline but reads the same
pre-update fields of `st`, so the order is preserved.  In pipe mode the
text is printed and the transcript line list is untouched. -/
def dispatchStep (pipe : Bool) (phrase_timeout : ℚ) (asr : List ℚ → String)
    (st : DispatchState) (now : ℚ) (audio_data : List ℤ) : StepOut :=
  if audio_data ≠ [] then
    if cppTrim (asr (normalizeAudio (padAudio audio_data))) = "" then
      ⟨⟨st.transcription, now, true⟩, some (normalizeAudio (padAudio audio_data))⟩
    else if pipe then
      ⟨⟨st.transcription, now, true⟩, some (normalizeAudio (padAudio audio_data))⟩
    else if st.phrase_time_set = true ∧ phrase_timeout < now - st.last_phrase_end_time then
      ⟨⟨st.transcription ++ [cppTrim (asr (normalizeAudio (padAudio audio_data)))], now, true⟩,
        some (normalizeAudio (padAudio audio_data))⟩
    else
      ⟨⟨setLast st.transcription (cppTrim (asr (normalizeAudio (padAudio audio_data)))), now, true⟩,
        some (normalizeAudio (padAudio audio_data))⟩
  else
    if st.phrase_time_set = true ∧
        phrase_timeout * (3 / 2) < now - st.last_phrase_end_time then
      if st.transcription.getLastD "" ≠ "" then
        ⟨⟨st.transcription ++ [""], st.last_phrase_end_time, false⟩, none⟩
      else
        ⟨⟨st.transcription, st.last_phrase_end_time, false⟩, none⟩
    else ⟨st, none⟩

/-- A run of consecutive empty polls (queue wait timed out each time), at
the given sequence of time stamps. -/
def emptyPolls (pipe : Bool) (phrase_timeout : ℚ) (asr : List ℚ → String)
    (st : DispatchState) : List ℚ → DispatchState
  | [] => st
  | t :: ts =>
      emptyPolls pipe phrase_timeout asr
        (dispatchStep pipe phrase_timeout asr st t []).state ts

/-- Invariant of the VAD state: an empty buffer has a zero silence counter
(the counter is only ever incremented behind a non-empty buffer and is reset
with the buffer on every flush). -/
def VadInv (st : VadState) : Prop :=
  st.vad_buffer = [] → st.consecutive_silence_chunks = 0

lemma vadInv_update (threshold : ℤ) (st : VadState) (frame : List ℤ)
    (h : VadInv st) : VadInv (vadUpdate threshold st frame) := by
  unfold vadUpdate VadInv
  split
  · intro hb
    rfl
  · split
    · intro hb
      exact absurd (List.append_eq_nil.mp hb).1 (by assumption)
    · exact h

lemma vadInv_step (threshold : ℤ) (maxBuf maxSil : ℕ) (st : VadState) (frame : List ℤ)
    (h : VadInv st) : VadInv (pa_callback_step threshold maxBuf maxSil st frame).1 := by
  unfold pa_callback_step vadFlush
  split
  · intro _
    rfl
  · exact vadInv_update threshold st frame h

lemma vadInv_run (threshold : ℤ) (maxBuf maxSil : ℕ) (frames : List (List ℤ))
    (st : VadState) (h : VadInv st) :
    VadInv (vadRun threshold maxBuf maxSil st frames) := by
  induction frames generalizing st with
  | nil => exact h
  | cons f fs ih =>
      exact ih _ (vadInv_step threshold maxBuf maxSil st f h)

/-- C5: a frame with RMS at most the energy threshold (`isVoiced = false`)
arriving while the segment buffer is empty, with VAD bypass off, leaves the
VAD state completely unchanged — the buffer stays empty, the silence counter
is untouched — and nothing is delivered: silence before speech is never
buffered. -/
theorem C5_silence_before_speech_not_buffered
    (threshold : ℤ) (maxBuf maxSil : ℕ) (st : VadState) (frame : List ℤ)
    (hquiet : isVoiced threshold frame = false)
    (hempty : st.vad_buffer = []) :
    pa_callback false threshold maxBuf maxSil st frame = (st, none) := by
  unfold pa_callback pa_callback_step vadUpdate vadFlush
  simp [hquiet, hempty]

theorem C5_silence_before_speech_not_buffered_witness :
    isVoiced 500 [3, -3] = false ∧
    pa_callback false 500 32000 16 ⟨[], 7⟩ [3, -3] = (⟨[], 7⟩, none) :=
  ⟨by decide,
   C5_silence_before_speech_not_buffered 500 32000 16 ⟨[], 7⟩ [3, -3] (by decide) rfl⟩

/-- C1: with VAD active, starting from the initial VAD state and processing
any sequence of frames, the next frame causes a flush exactly when, after
the buffer update, the buffer holds at least `recordTimeout × sampleRate`
samples or the trailing-silence chunk count has reached
`⌈phraseTimeout × sampleRate / FRAMES_PER_BUFFER⌉` — and never earlier; a
flush delivers the updated buffer and resets both the buffer and the
silence counter.  (`hexact` states that `recordTimeout × sampleRate` is a
whole number of samples, so that the truncating cast in `startRecording`
does not change it.) -/
theorem C1_flush_policy
    (threshold : ℤ) (sampleRate : ℕ) (recordTimeout phraseTimeout : ℚ)
    (mB mS : ℕ)
    (hsr : 0 < sampleRate) (hrt : 0 < recordTimeout) (hpt : 0 < phraseTimeout)
    (hmB : mB = max_buffer_samples sampleRate recordTimeout)
    (hmS : mS = max_silence_chunks sampleRate phraseTimeout)
    (hexact : (mB : ℚ) = (sampleRate : ℚ) * recordTimeout)
    (frames : List (List ℤ)) (frame : List ℤ)
    (st st1 : VadState)
    (hst : st = vadRun threshold mB mS ⟨[], 0⟩ frames)
    (hst1 : st1 = vadUpdate threshold st frame) :
    (((pa_callback_step threshold mB mS st frame).2.isSome = true)
      ↔ ((sampleRate : ℚ) * recordTimeout ≤ (st1.vad_buffer.length : ℚ)
          ∨ mS ≤ st1.consecutive_silence_chunks))
    ∧ (∀ seg, (pa_callback_step threshold mB mS st frame).2 = some seg →
        seg = st1.vad_buffer
        ∧ (pa_callback_step threshold mB mS st frame).1 = ⟨[], 0⟩) := by
  have hinv : VadInv st1 := by
    rw [hst1, hst]
    exact vadInv_update _ _ _
      (vadInv_run _ _ _ _ _ (fun _ => rfl))
  have hsrq : (0 : ℚ) < (sampleRate : ℚ) := by exact_mod_cast hsr
  have hmB1 : 0 < mB := by
    have h0 : (0 : ℚ) < (mB : ℚ) := by
      rw [hexact]
      exact mul_pos hsrq hrt
    exact_mod_cast h0
  have hmS1 : 0 < mS := by
    rw [hmS]
    unfold max_silence_chunks
    have hq : (0 : ℚ) < phraseTimeout * (sampleRate : ℚ) / (FRAMES_PER_BUFFER : ℚ) := by
      have hf : (0 : ℚ) < (FRAMES_PER_BUFFER : ℚ) := by
        norm_num [FRAMES_PER_BUFFER]
      exact div_pos (mul_pos hpt hsrq) hf
    have hc := Int.ceil_pos.mpr hq
    omega
  have hcast : ∀ n : ℕ,
      ((sampleRate : ℚ) * recordTimeout ≤ (n : ℚ)) ↔ mB ≤ n := by
    intro n
    rw [← hexact, Nat.cast_le]
  unfold pa_callback_step vadFlush
  rw [← hst1]
  by_cases hc : st1.vad_buffer ≠ [] ∧
      (mB ≤ st1.vad_buffer.length ∨ mS ≤ st1.consecutive_silence_chunks)
  · rw [if_pos hc]
    refine ⟨?_, ?_⟩
    · simp only [Option.isSome_some, true_iff]
      rcases hc.2 with h | h
      · exact Or.inl ((hcast _).mpr h)
      · exact Or.inr h
    · intro seg hseg
      exact ⟨(Option.some.inj hseg).symm, rfl⟩
  · rw [if_neg hc]
    refine ⟨?_, ?_⟩
    · simp only [Option.isSome_none, Bool.false_eq_true, false_iff]
      rintro (h | h)
      · rcases eq_or_ne st1.vad_buffer [] with hb | hb
        · rw [hb] at h
          simp only [List.length_nil, Nat.cast_zero] at h
          have : mB ≤ 0 := (hcast 0).mp h
          omega
        · exact hc ⟨hb, Or.inl ((hcast _).mp h)⟩
      · rcases eq_or_ne st1.vad_buffer [] with hb | hb
        · have h0 := hinv hb
          omega
        · exact hc ⟨hb, Or.inr h⟩
    · intro seg hseg
      simp at hseg

theorem C1_flush_policy_witness :
    (((pa_callback_step 500 32000 16 ⟨[], 0⟩ []).2.isSome = true)
      ↔ (((16000 : ℕ) : ℚ) * 2 ≤ ((vadUpdate 500 ⟨[], 0⟩ []).vad_buffer.length : ℚ)
          ∨ 16 ≤ (vadUpdate 500 ⟨[], 0⟩ []).consecutive_silence_chunks))
    ∧ (∀ seg, (pa_callback_step 500 32000 16 ⟨[], 0⟩ []).2 = some seg →
        seg = (vadUpdate 500 ⟨[], 0⟩ []).vad_buffer
        ∧ (pa_callback_step 500 32000 16 ⟨[], 0⟩ []).1 = ⟨[], 0⟩) :=
  C1_flush_policy 500 16000 2 1 32000 16
    (by norm_num) (by norm_num) (by norm_num)
    (by
      unfold max_buffer_samples
      norm_num
      rfl)
    (by
      unfold max_silence_chunks FRAMES_PER_BUFFER
      have h : (⌈(1 : ℚ) * ((16000 : ℕ) : ℚ) / ((1024 : ℕ) : ℚ)⌉ : ℤ) = 16 := by
        rw [Int.ceil_eq_iff]
        norm_num
      rw [h]
      rfl)
    (by norm_num)
    [] [] ⟨[], 0⟩ (vadUpdate 500 ⟨[], 0⟩ []) rfl rfl

/-- C7: `stopRecording` is idempotent — calling it twice in a row produces
the same end state as calling it once; calling it when recording is not
active leaves the state unchanged; and a stop on an active recorder clears
the recording flag, the stream and any buffered-but-unflushed segment. -/
theorem C7_stop_idempotent (s : RecorderState) :
    stopRecording (stopRecording s) = stopRecording s
    ∧ (s.recordingActive = false → stopRecording s = s)
    ∧ (s.recordingActive = true →
        (stopRecording s).recordingActive = false
        ∧ (stopRecording s).stream = false
        ∧ (stopRecording s).vad.vad_buffer = []) := by
  unfold stopRecording
  cases hs : s.recordingActive with
  | false => simp [hs]
  | true => simp [hs]

theorem C7_stop_idempotent_witness :
    (stopRecording (stopRecording ⟨true, true, false, ⟨[1, 2], 3⟩, 1000, 32000, 16⟩)
        = stopRecording ⟨true, true, false, ⟨[1, 2], 3⟩, 1000, 32000, 16⟩)
    ∧ ((stopRecording (⟨true, true, false, ⟨[1, 2], 3⟩, 1000, 32000, 16⟩ : RecorderState)).recordingActive = false
        ∧ (stopRecording (⟨true, true, false, ⟨[1, 2], 3⟩, 1000, 32000, 16⟩ : RecorderState)).stream = false
        ∧ (stopRecording (⟨true, true, false, ⟨[1, 2], 3⟩, 1000, 32000, 16⟩ : RecorderState)).vad.vad_buffer = [])
    ∧ stopRecording ⟨false, false, false, ⟨[4], 5⟩, 1000, 0, 0⟩
        = (⟨false, false, false, ⟨[4], 5⟩, 1000, 0, 0⟩ : RecorderState) :=
  ⟨(C7_stop_idempotent ⟨true, true, false, ⟨[1, 2], 3⟩, 1000, 32000, 16⟩).1,
   (C7_stop_idempotent ⟨true, true, false, ⟨[1, 2], 3⟩, 1000, 32000, 16⟩).2.2 rfl,
   (C7_stop_idempotent ⟨false, false, false, ⟨[4], 5⟩, 1000, 0, 0⟩).2.1 rfl⟩

/-- C10: whenever `startRecording` fails (no default input device, stream
open failure, or stream start failure), `recordingActive` was already set
and is not rolled back: the recorder is left marked active while no stream
is open.  (`hinv`: an open stream implies an active recorder, which holds
for every state the recorder's public lifecycle can reach.) -/
theorem C10_failed_start_leaves_active
    (hasDevice openOk startOk : Bool) (sampleRate : ℕ)
    (recordTimeout phraseTimeout : ℚ) (s : RecorderState)
    (hinv : s.stream = true → s.recordingActive = true)
    (hfail : (startRecording hasDevice openOk startOk sampleRate
        recordTimeout phraseTimeout s).2 = false) :
    (startRecording hasDevice openOk startOk sampleRate
        recordTimeout phraseTimeout s).1.recordingActive = true
    ∧ (startRecording hasDevice openOk startOk sampleRate
        recordTimeout phraseTimeout s).1.stream = false := by
  have hstream0 : (if s.recordingActive then stopRecording s else s).stream = false := by
    cases ha : s.recordingActive with
    | false =>
        cases hstr : s.stream with
        | false => simp [ha, hstr]
        | true => exact absurd (hinv hstr) (by simp [ha])
    | true => simp [ha, stopRecording]
  cases hd : hasDevice with
  | false =>
      simp [startRecording, hd, hstream0]
  | true =>
      cases ho : openOk with
      | false => simp [startRecording, hd, ho, hstream0]
      | true =>
          cases hk : startOk with
          | false => simp [startRecording, hd, ho, hk]
          | true =>
              rw [startRecording] at hfail
              simp [hd, ho, hk] at hfail

theorem C10_failed_start_leaves_active_witness :
    ((⟨false, false, false, ⟨[], 0⟩, 1000, 0, 0⟩ : RecorderState).stream = true →
        (⟨false, false, false, ⟨[], 0⟩, 1000, 0, 0⟩ : RecorderState).recordingActive = true)
    ∧ (startRecording false true true 16000 2 3
        ⟨false, false, false, ⟨[], 0⟩, 1000, 0, 0⟩).2 = false
    ∧ ((startRecording false true true 16000 2 3
          ⟨false, false, false, ⟨[], 0⟩, 1000, 0, 0⟩).1.recordingActive = true
        ∧ (startRecording false true true 16000 2 3
            ⟨false, false, false, ⟨[], 0⟩, 1000, 0, 0⟩).1.stream = false) :=
  ⟨by decide, rfl,
   C10_failed_start_leaves_active false true true 16000 2 3
     ⟨false, false, false, ⟨[], 0⟩, 1000, 0, 0⟩ (by decide) rfl⟩

lemma dispatchStep_empty_frozen (pipe : Bool) (phrase_timeout : ℚ)
    (asr : List ℚ → String) (st : DispatchState) (now : ℚ)
    (h : st.phrase_time_set = false) :
    dispatchStep pipe phrase_timeout asr st now [] = ⟨st, none⟩ := by
  unfold dispatchStep
  simp [h]

lemma emptyPolls_frozen (pipe : Bool) (phrase_timeout : ℚ)
    (asr : List ℚ → String) (st : DispatchState) (times : List ℚ)
    (h : st.phrase_time_set = false) :
    emptyPolls pipe phrase_timeout asr st times = st := by
  induction times with
  | nil => rfl
  | cons t ts ih =>
      rw [emptyPolls, dispatchStep_empty_frozen pipe phrase_timeout asr st t h]
      exact ih

/-- C4: once a run of empty polls reaches a point where the phrase is open
and more than `phraseTimeout × 1.5` has elapsed since the last segment,
while the live line is non-empty, an empty separator line is appended and
the phrase flag is cleared — and any further empty polls leave the state
(in particular the transcript) completely unchanged, so the separator is
appended exactly once. -/
theorem C4_separator_appended_once (pipe : Bool) (phrase_timeout : ℚ)
    (asr : List ℚ → String) (st : DispatchState) (now : ℚ) (times : List ℚ)
    (hopen : st.phrase_time_set = true)
    (hgap : phrase_timeout * (3 / 2) < now - st.last_phrase_end_time)
    (hlive : st.transcription.getLastD "" ≠ "") :
    (dispatchStep pipe phrase_timeout asr st now []).state.transcription
        = st.transcription ++ [""]
    ∧ (dispatchStep pipe phrase_timeout asr st now []).state.phrase_time_set = false
    ∧ emptyPolls pipe phrase_timeout asr
        (dispatchStep pipe phrase_timeout asr st now []).state times
        = (dispatchStep pipe phrase_timeout asr st now []).state := by
  have hstep : dispatchStep pipe phrase_timeout asr st now []
      = ⟨⟨st.transcription ++ [""], st.last_phrase_end_time, false⟩, none⟩ := by
    have hno : ¬(([] : List ℤ) ≠ []) := by simp
    unfold dispatchStep
    rw [if_neg hno, if_pos ⟨hopen, hgap⟩, if_pos hlive]
  rw [hstep]
  exact ⟨rfl, rfl, emptyPolls_frozen _ _ _ _ _ rfl⟩

theorem C4_separator_appended_once_witness :
    (dispatchStep false 3 (fun _ => "") ⟨["hello"], 0, true⟩ 10 []).state.transcription
        = ["hello"] ++ [""]
    ∧ (dispatchStep false 3 (fun _ => "") ⟨["hello"], 0, true⟩ 10 []).state.phrase_time_set = false
    ∧ emptyPolls false 3 (fun _ => "")
        (dispatchStep false 3 (fun _ => "") ⟨["hello"], 0, true⟩ 10 []).state [11, 12]
        = (dispatchStep false 3 (fun _ => "") ⟨["hello"], 0, true⟩ 10 []).state :=
  C4_separator_appended_once false 3 (fun _ => "") ⟨["hello"], 0, true⟩ 10 [11, 12]
    rfl (by norm_num) (by decide)

/-- C3: in interactive (non-pipe) mode, when a segment with non-empty
trimmed transcription arrives: if the phrase is open and more than
`phraseTimeout` has elapsed since the last segment, the previous live line
is kept (frozen) and the new text is appended as a new live line; otherwise
the new text overwrites the current live (last) line in place. -/
theorem C3_interactive_phrase_boundary (phrase_timeout : ℚ)
    (asr : List ℚ → String) (st : DispatchState) (now : ℚ) (audio_data : List ℤ)
    (hne : audio_data ≠ [])
    (htext : cppTrim (asr (normalizeAudio (padAudio audio_data))) ≠ "") :
    ((st.phrase_time_set = true ∧ phrase_timeout < now - st.last_phrase_end_time) →
      (dispatchStep false phrase_timeout asr st now audio_data).state.transcription
        = st.transcription ++ [cppTrim (asr (normalizeAudio (padAudio audio_data)))])
    ∧ (¬(st.phrase_time_set = true ∧ phrase_timeout < now - st.last_phrase_end_time) →
      (dispatchStep false phrase_timeout asr st now audio_data).state.transcription
        = st.transcription.dropLast
            ++ [cppTrim (asr (normalizeAudio (padAudio audio_data)))]) := by
  constructor
  · intro hpc
    unfold dispatchStep
    rw [if_pos hne, if_neg htext, if_neg Bool.false_ne_true, if_pos hpc]
  · intro hpc
    unfold dispatchStep
    rw [if_pos hne, if_neg htext, if_neg Bool.false_ne_true, if_neg hpc]
    rfl

theorem C3_interactive_phrase_boundary_witness :
    ([1] ≠ ([] : List ℤ))
    ∧ cppTrim ((fun _ => "hi") (normalizeAudio (padAudio [1]))) ≠ ""
    ∧ (((⟨["old"], 0, true⟩ : DispatchState).phrase_time_set = true
          ∧ (3 : ℚ) < 10 - (⟨["old"], 0, true⟩ : DispatchState).last_phrase_end_time) →
        (dispatchStep false 3 (fun _ => "hi") ⟨["old"], 0, true⟩ 10 [1]).state.transcription
          = ["old"] ++ [cppTrim ((fun _ => "hi") (normalizeAudio (padAudio [1])))])
    ∧ (¬((⟨["old"], 0, true⟩ : DispatchState).phrase_time_set = true
          ∧ (3 : ℚ) < 10 - (⟨["old"], 0, true⟩ : DispatchState).last_phrase_end_time) →
        (dispatchStep false 3 (fun _ => "hi") ⟨["old"], 0, true⟩ 10 [1]).state.transcription
          = (["old"] : List String).dropLast
              ++ [cppTrim ((fun _ => "hi") (normalizeAudio (padAudio [1])))]) :=
  ⟨by decide, by decide,
   (C3_interactive_phrase_boundary 3 (fun _ => "hi") ⟨["old"], 0, true⟩ 10 [1]
      (by decide) (by decide)).1,
   (C3_interactive_phrase_boundary 3 (fun _ => "hi") ⟨["old"], 0, true⟩ 10 [1]
      (by decide) (by decide)).2⟩

/-- C6: every delivered segment is handed to the ASR contract as
`normalize (pad segment)`: a segment shorter than `MIN_AUDIO_SAMPLES`
(100 ms, 1600 samples at 16 kHz) is right-padded with zero samples to
exactly that minimum length before normalisation, and a segment at or above
the minimum is passed unpadded. -/
theorem C6_minimum_length_padding (pipe : Bool) (phrase_timeout : ℚ)
    (asr : List ℚ → String) (st : DispatchState) (now : ℚ) (audio_data : List ℤ)
    (hne : audio_data ≠ []) :
    (dispatchStep pipe phrase_timeout asr st now audio_data).asrInput
        = some (normalizeAudio (padAudio audio_data))
    ∧ (audio_data.length < MIN_AUDIO_SAMPLES →
        padAudio audio_data
          = audio_data ++ List.replicate (MIN_AUDIO_SAMPLES - audio_data.length) 0
        ∧ (padAudio audio_data).length = MIN_AUDIO_SAMPLES)
    ∧ (MIN_AUDIO_SAMPLES ≤ audio_data.length → padAudio audio_data = audio_data) := by
  refine ⟨?_, ?_, ?_⟩
  · unfold dispatchStep
    rw [if_pos hne]
    split_ifs <;> rfl
  · intro h
    unfold padAudio
    rw [if_pos h]
    refine ⟨rfl, ?_⟩
    simp only [List.length_append, List.length_replicate]
    omega
  · intro h
    unfold padAudio
    rw [if_neg (not_lt.mpr h)]

theorem C6_minimum_length_padding_witness :
    (dispatchStep false 3 (fun _ => "a") ⟨[""], 0, false⟩ 1
        (List.replicate 800 1)).asrInput
      = some (normalizeAudio (padAudio (List.replicate 800 1)))
    ∧ ((List.replicate 800 (1 : ℤ)).length < MIN_AUDIO_SAMPLES →
        padAudio (List.replicate 800 1)
          = List.replicate 800 1
              ++ List.replicate (MIN_AUDIO_SAMPLES - (List.replicate 800 (1 : ℤ)).length) 0
        ∧ (padAudio (List.replicate 800 1)).length = MIN_AUDIO_SAMPLES)
    ∧ (MIN_AUDIO_SAMPLES ≤ (List.replicate 800 (1 : ℤ)).length →
        padAudio (List.replicate 800 1) = List.replicate 800 1) :=
  C6_minimum_length_padding false 3 (fun _ => "a") ⟨[""], 0, false⟩ 1
    (List.replicate 800 1)
    (by simp only [ne_eq, List.replicate_eq_nil_iff]; omega)

/-- C8: a segment whose transcription trims to the empty string leaves the
transcript line list completely unchanged — no line appended, no live line
updated (the loop `continue`s before touching `transcription`). -/
theorem C8_empty_transcription_skipped (pipe : Bool) (phrase_timeout : ℚ)
    (asr : List ℚ → String) (st : DispatchState) (now : ℚ) (audio_data : List ℤ)
    (hne : audio_data ≠ [])
    (hempty : cppTrim (asr (normalizeAudio (padAudio audio_data))) = "") :
    (dispatchStep pipe phrase_timeout asr st now audio_data).state.transcription
      = st.transcription := by
  unfold dispatchStep
  rw [if_pos hne]
  simp [hempty]

theorem C8_empty_transcription_skipped_witness :
    cppTrim ((fun _ => " ") (normalizeAudio (padAudio [2]))) = ""
    ∧ (dispatchStep false 3 (fun _ => " ") ⟨["x"], 0, true⟩ 5 [2]).state.transcription
        = ["x"] :=
  ⟨by decide,
   C8_empty_transcription_skipped false 3 (fun _ => " ") ⟨["x"], 0, true⟩ 5 [2]
     (by decide) (by decide)⟩

/-- C9: every delivered non-empty segment updates `last_phrase_end_time` to
the current time and sets `phrase_time_set` — this happens before
transcription, so it holds whatever text the ASR contract returns, including
the empty string. -/
theorem C9_segment_advances_phrase_timer (pipe : Bool) (phrase_timeout : ℚ)
    (asr : List ℚ → String) (st : DispatchState) (now : ℚ) (audio_data : List ℤ)
    (hne : audio_data ≠ []) :
    (dispatchStep pipe phrase_timeout asr st now audio_data).state.last_phrase_end_time = now
    ∧ (dispatchStep pipe phrase_timeout asr st now audio_data).state.phrase_time_set = true := by
  unfold dispatchStep
  rw [if_pos hne]
  split_ifs <;> exact ⟨rfl, rfl⟩

theorem C9_segment_advances_phrase_timer_witness :
    (dispatchStep false 3 (fun _ => "") ⟨["x"], 0, false⟩ 7 [3]).state.last_phrase_end_time = 7
    ∧ (dispatchStep false 3 (fun _ => "") ⟨["x"], 0, false⟩ 7 [3]).state.phrase_time_set = true :=
  C9_segment_advances_phrase_timer false 3 (fun _ => "") ⟨["x"], 0, false⟩ 7 [3] (by decide)

lemma natFloor_sqrt_eq (x : ℝ) (hx : 0 ≤ x) :
    ⌊Real.sqrt x⌋₊ = Nat.sqrt ⌊x⌋₊ := by
  have h1 : ((Nat.sqrt ⌊x⌋₊ : ℕ) : ℝ) ≤ Real.sqrt x := by
    rw [Real.le_sqrt (by positivity) hx]
    calc ((Nat.sqrt ⌊x⌋₊ : ℕ) : ℝ) ^ 2
        = ((Nat.sqrt ⌊x⌋₊ ^ 2 : ℕ) : ℝ) := by push_cast; ring
      _ ≤ ((⌊x⌋₊ : ℕ) : ℝ) := by exact_mod_cast Nat.sqrt_le' ⌊x⌋₊
      _ ≤ x := Nat.floor_le hx
  have h2 : Real.sqrt x < ((Nat.sqrt ⌊x⌋₊ : ℕ) : ℝ) + 1 := by
    rw [Real.sqrt_lt' (by positivity)]
    calc x < (⌊x⌋₊ : ℝ) + 1 := Nat.lt_floor_add_one x
      _ ≤ (((Nat.sqrt ⌊x⌋₊ + 1) ^ 2 : ℕ) : ℝ) := by
          exact_mod_cast Nat.succ_le_of_lt (Nat.lt_succ_sqrt' ⌊x⌋₊)
      _ = (((Nat.sqrt ⌊x⌋₊ : ℕ) : ℝ) + 1) ^ 2 := by push_cast; ring
  rw [Nat.floor_eq_iff (Real.sqrt_nonneg x)]
  exact ⟨h1, h2⟩

lemma int_floor_sqrt_succ_half (y : ℝ) (hy : 0 ≤ y) :
    ⌊(Real.sqrt y + 1) / 2⌋ = (((Nat.sqrt ⌊y⌋₊ + 1) / 2 : ℕ) : ℤ) := by
  have hfs : ⌊Real.sqrt y⌋₊ = Nat.sqrt ⌊y⌋₊ := natFloor_sqrt_eq y hy
  have h1 : ((Nat.sqrt ⌊y⌋₊ : ℕ) : ℝ) ≤ Real.sqrt y := by
    rw [← hfs]
    exact Nat.floor_le (Real.sqrt_nonneg y)
  have h2 : Real.sqrt y < ((Nat.sqrt ⌊y⌋₊ : ℕ) : ℝ) + 1 := by
    rw [← hfs]
    exact Nat.lt_floor_add_one _
  have hb1 : (Nat.sqrt ⌊y⌋₊ : ℕ) ≤ 2 * ((Nat.sqrt ⌊y⌋₊ + 1) / 2) := by omega
  have hb2 : 2 * ((Nat.sqrt ⌊y⌋₊ + 1) / 2) ≤ Nat.sqrt ⌊y⌋₊ + 1 := by omega
  have hc1 : ((Nat.sqrt ⌊y⌋₊ : ℕ) : ℝ)
      ≤ 2 * (((Nat.sqrt ⌊y⌋₊ + 1) / 2 : ℕ) : ℝ) := by exact_mod_cast hb1
  have hc2 : 2 * (((Nat.sqrt ⌊y⌋₊ + 1) / 2 : ℕ) : ℝ)
      ≤ ((Nat.sqrt ⌊y⌋₊ : ℕ) : ℝ) + 1 := by exact_mod_cast hb2
  rw [Int.floor_eq_iff, Int.cast_natCast]
  constructor
  · linarith
  · linarith

lemma trunc_formula (S n : ℕ) (hn : 0 < n) :
    ((Nat.sqrt ((25 * S) / (4 * n)) : ℕ) : ℤ)
      = (⌊2.5 * Real.sqrt ((S : ℝ) / (n : ℝ))⌋₊ : ℤ) := by
  have hnR : (0 : ℝ) < (n : ℝ) := by exact_mod_cast hn
  have hne' : (n : ℝ) ≠ 0 := hnR.ne'
  have hsq : 2.5 * Real.sqrt ((S : ℝ) / (n : ℝ))
      = Real.sqrt (((25 * S : ℕ) : ℝ) / ((4 * n : ℕ) : ℝ)) := by
    rw [show (((25 * S : ℕ) : ℝ) / ((4 * n : ℕ) : ℝ))
        = 2.5 ^ 2 * ((S : ℝ) / (n : ℝ)) from by
      push_cast
      rw [← div_div, ← mul_div_assoc]
      congr 1
      ring]
    rw [Real.sqrt_mul (by norm_num) _, Real.sqrt_sq (by norm_num)]
  rw [hsq, natFloor_sqrt_eq _ (by positivity), Nat.floor_div_nat, Nat.floor_natCast]

lemma round_formula (S n : ℕ) (hn : 0 < n) :
    (((Nat.sqrt ((25 * S) / n) + 1) / 2 : ℕ) : ℤ)
      = round (2.5 * Real.sqrt ((S : ℝ) / (n : ℝ))) := by
  have hnR : (0 : ℝ) < (n : ℝ) := by exact_mod_cast hn
  have hne' : (n : ℝ) ≠ 0 := hnR.ne'
  have hsq : 2.5 * Real.sqrt ((S : ℝ) / (n : ℝ))
      = Real.sqrt (((25 * S : ℕ) : ℝ) / (n : ℝ)) / 2 := by
    rw [show (((25 * S : ℕ) : ℝ) / (n : ℝ))
        = 5 ^ 2 * ((S : ℝ) / (n : ℝ)) from by
      push_cast
      rw [← mul_div_assoc]
      congr 1
      ring]
    rw [Real.sqrt_mul (by norm_num) _, Real.sqrt_sq (by norm_num)]
    ring
  rw [hsq, round_eq,
    show Real.sqrt (((25 * S : ℕ) : ℝ) / (n : ℝ)) / 2 + 1 / 2
        = (Real.sqrt (((25 * S : ℕ) : ℝ) / (n : ℝ)) + 1) / 2 from by ring,
    int_floor_sqrt_succ_half _ (by positivity),
    Nat.floor_div_nat, Nat.floor_natCast]

/-- C2 counterexample: for the non-empty collection `[1, 1, 1, 5]` the RMS
is `√7` and `2.5 · √7 ≈ 6.614`.  The source truncates
(`static_cast<int>(rms * 2.5)`) and sets the threshold to 6, while the
claimed `round(RMS × 2.5)` is 7 — so calibration does not set the threshold
to `round(RMS × 2.5)`. -/
theorem C2_trunc_vs_round_counterexample :
    adjustForAmbientNoise 1000 (-1) [1, 1, 1, 5] = 6
    ∧ round (2.5 * Real.sqrt (((sum_squares [1, 1, 1, 5]).toNat : ℝ)
        / (([1, 1, 1, 5] : List ℤ).length : ℝ))) = 7
    ∧ adjustForAmbientNoise 1000 (-1) [1, 1, 1, 5]
        ≠ round (2.5 * Real.sqrt (((sum_squares [1, 1, 1, 5]).toNat : ℝ)
            / (([1, 1, 1, 5] : List ℤ).length : ℝ))) := by
  have h1 : adjustForAmbientNoise 1000 (-1) [1, 1, 1, 5] = 6 := by
    unfold adjustForAmbientNoise
    rw [if_neg (by simp), if_neg (by simp)]
    unfold calibThreshold
    have h : (25 * (sum_squares [1, 1, 1, 5]).toNat
        / (4 * ([1, 1, 1, 5] : List ℤ).length) : ℕ) = 43 := rfl
    rw [h]
    norm_num
  have h2 : round (2.5 * Real.sqrt (((sum_squares [1, 1, 1, 5]).toNat : ℝ)
      / (([1, 1, 1, 5] : List ℤ).length : ℝ))) = 7 := by
    rw [← round_formula (sum_squares [1, 1, 1, 5]).toNat
      ([1, 1, 1, 5] : List ℤ).length (by decide)]
    have h : (25 * (sum_squares [1, 1, 1, 5]).toNat
        / ([1, 1, 1, 5] : List ℤ).length : ℕ) = 175 := rfl
    rw [h]
    norm_num
  refine ⟨h1, h2, ?_⟩
  rw [h1, h2]
  decide

/-- C2 (amended): for every non-empty collection of calibration noise
samples, ambient-noise calibration sets the energy threshold to
`RMS × 2.5` truncated toward zero, i.e. `⌊RMS × 2.5⌋` — not rounded; the
claim's concrete scenario still holds: 48000 samples of constant value 40
(RMS = 40) yield threshold 100 exactly. -/
theorem C2_calibration_truncated_threshold (current : ℤ) (noise_samples : List ℤ)
    (hne : noise_samples ≠ []) :
    adjustForAmbientNoise current (-1) noise_samples
      = (⌊2.5 * Real.sqrt (((sum_squares noise_samples).toNat : ℝ)
          / (noise_samples.length : ℝ))⌋₊ : ℤ)
    ∧ adjustForAmbientNoise current (-1) (List.replicate 48000 40) = 100 := by
  constructor
  · unfold adjustForAmbientNoise
    rw [if_neg (by simp), if_neg (by simpa using hne)]
    unfold calibThreshold
    exact trunc_formula _ _ (List.length_pos.mpr hne)
  · unfold adjustForAmbientNoise
    rw [if_neg (by simp),
      if_neg (by simp only [ne_eq, List.replicate_eq_nil_iff]; omega)]
    unfold calibThreshold
    have hss : sum_squares (List.replicate 48000 (40 : ℤ)) = 76800000 := by
      unfold sum_squares
      rw [List.map_replicate, List.sum_replicate]
      norm_num
    rw [hss, List.length_replicate]
    have h : (25 * (76800000 : ℤ).toNat / (4 * 48000) : ℕ) = 10000 := rfl
    rw [h]
    norm_num

theorem C2_calibration_truncated_threshold_witness :
    ([1, 1, 1, 5] : List ℤ) ≠ []
    ∧ (adjustForAmbientNoise 1000 (-1) [1, 1, 1, 5]
        = (⌊2.5 * Real.sqrt (((sum_squares [1, 1, 1, 5]).toNat : ℝ)
            / (([1, 1, 1, 5] : List ℤ).length : ℝ))⌋₊ : ℤ)
      ∧ adjustForAmbientNoise 1000 (-1) (List.replicate 48000 40) = 100) :=
  ⟨by decide, C2_calibration_truncated_threshold 1000 [1, 1, 1, 5] (by decide)⟩

end SpeechToData
